import Mathlib

/-
Verification of the GPU gather/scatter kernels of pace/util/cuda_kernels.py.

The four CUDA kernels (pack_scalar, unpack_scalar, pack_vector, unpack_vector)
are embedded shallowly: device arrays become total functions Nat to Rat, a
kernel thread becomes a function from the destination state to the updated
state, and a launch with T threads becomes the left fold of the thread step
over thread ids 0 .. T-1.  Each thread writes at most one slot and reads only
source data, so the fold order is irrelevant where slots are distinct; the
fold is nevertheless the literal sequential semantics.  Values are rationals:
the kernels only copy and negate, both exact operations.
-/

namespace CudaKernels

/-- Launch of a data-parallel kernel: fold the per-thread step over the
thread identifiers 0 .. T-1. -/
def launchFold {σ : Type} (step : Nat → σ → σ) (T : Nat) (s : σ) : σ :=
  (List.range T).foldl (fun d t => step t d) s

/-- Thread body of pack_scalar: guard tid against i_nIndex, then write
i_sourceArray[i_indexes[tid]] to o_destinationBuffer[i_offset + tid]. -/
def pack_scalar_thread (i_sourceArray : Nat → ℚ) (i_indexes : Nat → Nat)
    (i_nIndex i_offset : Nat) (tid : Nat)
    (o_destinationBuffer : Nat → ℚ) : Nat → ℚ :=
  if i_nIndex ≤ tid then o_destinationBuffer
  else
    Function.update o_destinationBuffer (i_offset + tid)
      (i_sourceArray (i_indexes tid))

/-- Launch of pack_scalar over T threads. -/
def pack_scalar_launch (i_sourceArray : Nat → ℚ) (i_indexes : Nat → Nat)
    (i_nIndex i_offset T : Nat) (o_destinationBuffer : Nat → ℚ) : Nat → ℚ :=
  launchFold
    (fun tid d => pack_scalar_thread i_sourceArray i_indexes i_nIndex i_offset tid d)
    T o_destinationBuffer

/-- Thread body of unpack_scalar: guard tid against i_nIndex, then write
i_sourceBuffer[i_offset + tid] to o_destinationArray[i_indexes[tid]]. -/
def unpack_scalar_thread (i_sourceBuffer : Nat → ℚ) (i_indexes : Nat → Nat)
    (i_nIndex i_offset : Nat) (tid : Nat)
    (o_destinationArray : Nat → ℚ) : Nat → ℚ :=
  if i_nIndex ≤ tid then o_destinationArray
  else
    Function.update o_destinationArray (i_indexes tid)
      (i_sourceBuffer (i_offset + tid))

/-- Launch of unpack_scalar over T threads. -/
def unpack_scalar_launch (i_sourceBuffer : Nat → ℚ) (i_indexes : Nat → Nat)
    (i_nIndex i_offset T : Nat) (o_destinationArray : Nat → ℚ) : Nat → ℚ :=
  launchFold
    (fun tid d => unpack_scalar_thread i_sourceBuffer i_indexes i_nIndex i_offset tid d)
    T o_destinationArray

/-- Thread body of pack_vector: guard tid against i_nIndexX + i_nIndexY, then
branch on the rotation code exactly as the CUDA source does (four equality
branches, no default), writing one rotated value to
o_destinationBuffer[i_offset + tid].  The rotation code is a C int, hence an
integer here. -/
def pack_vector_thread (i_sourceArrayX i_sourceArrayY : Nat → ℚ)
    (i_indexesX i_indexesY : Nat → Nat) (i_nIndexX i_nIndexY i_offset : Nat)
    (i_rotate : ℤ) (tid : Nat) (o_destinationBuffer : Nat → ℚ) : Nat → ℚ :=
  if i_nIndexX + i_nIndexY ≤ tid then o_destinationBuffer
  else if i_rotate = 0 then
    if tid < i_nIndexX then
      Function.update o_destinationBuffer (i_offset + tid)
        (i_sourceArrayX (i_indexesX tid))
    else
      Function.update o_destinationBuffer (i_offset + tid)
        (i_sourceArrayY (i_indexesY (tid - i_nIndexX)))
  else if i_rotate = 1 then
    if tid < i_nIndexY then
      Function.update o_destinationBuffer (i_offset + tid)
        (i_sourceArrayY (i_indexesY tid))
    else
      Function.update o_destinationBuffer (i_offset + tid)
        (-1 * i_sourceArrayX (i_indexesX (tid - i_nIndexY)))
  else if i_rotate = 2 then
    if tid < i_nIndexX then
      Function.update o_destinationBuffer (i_offset + tid)
        (-1 * i_sourceArrayX (i_indexesX tid))
    else
      Function.update o_destinationBuffer (i_offset + tid)
        (-1 * i_sourceArrayY (i_indexesY (tid - i_nIndexX)))
  else if i_rotate = 3 then
    if tid < i_nIndexY then
      Function.update o_destinationBuffer (i_offset + tid)
        (-1 * i_sourceArrayY (i_indexesY tid))
    else
      Function.update o_destinationBuffer (i_offset + tid)
        (i_sourceArrayX (i_indexesX (tid - i_nIndexY)))
  else o_destinationBuffer

/-- Launch of pack_vector over T threads. -/
def pack_vector_launch (i_sourceArrayX i_sourceArrayY : Nat → ℚ)
    (i_indexesX i_indexesY : Nat → Nat) (i_nIndexX i_nIndexY i_offset : Nat)
    (i_rotate : ℤ) (T : Nat) (o_destinationBuffer : Nat → ℚ) : Nat → ℚ :=
  launchFold
    (fun tid d => pack_vector_thread i_sourceArrayX i_sourceArrayY i_indexesX
      i_indexesY i_nIndexX i_nIndexY i_offset i_rotate tid d)
    T o_destinationBuffer

/-- Thread body of unpack_vector: the state is the pair of destination
component arrays.  A thread with tid below i_nIndexX writes the X array, a
thread with tid below i_nIndexX + i_nIndexY writes the Y array, any other
thread does nothing (the CUDA source has no explicit early return here; the
if / else-if chain is the whole body). -/
def unpack_vector_thread (i_sourceBuffer : Nat → ℚ)
    (i_indexesX i_indexesY : Nat → Nat) (i_nIndexX i_nIndexY i_offset : Nat)
    (tid : Nat) (dsts : (Nat → ℚ) × (Nat → ℚ)) : (Nat → ℚ) × (Nat → ℚ) :=
  if tid < i_nIndexX then
    (Function.update dsts.1 (i_indexesX tid) (i_sourceBuffer (i_offset + tid)),
     dsts.2)
  else if tid < i_nIndexX + i_nIndexY then
    (dsts.1,
     Function.update dsts.2 (i_indexesY (tid - i_nIndexX))
       (i_sourceBuffer (i_offset + tid)))
  else dsts

/-- Launch of unpack_vector over T threads. -/
def unpack_vector_launch (i_sourceBuffer : Nat → ℚ)
    (i_indexesX i_indexesY : Nat → Nat) (i_nIndexX i_nIndexY i_offset : Nat)
    (T : Nat) (dsts : (Nat → ℚ) × (Nat → ℚ)) : (Nat → ℚ) × (Nat → ℚ) :=
  launchFold
    (fun tid d => unpack_vector_thread i_sourceBuffer i_indexesX i_indexesY
      i_nIndexX i_nIndexY i_offset tid d)
    T dsts

/-- Unfolding a launch at its last thread. -/
theorem launchFold_succ {σ : Type} (step : Nat → σ → σ) (T : Nat) (s : σ) :
    launchFold step (T + 1) s = step T (launchFold step T s) := by
  simp [launchFold, List.range_succ]

/-- A launch whose threads all leave the state unchanged is the identity. -/
theorem launchFold_inert {σ : Type} (step : Nat → σ → σ)
    (h : ∀ t s, step t s = s) (T : Nat) (s : σ) :
    launchFold step T s = s := by
  induction T with
  | zero => rfl
  | succ T ih => rw [launchFold_succ, h, ih]

/-- Threads at or beyond the active count are inert, so extending the launch
size beyond the count does not change the result. -/
theorem launchFold_extend {σ : Type} (step : Nat → σ → σ) (n : Nat)
    (h : ∀ t, n ≤ t → ∀ s, step t s = s) (k : Nat) (s : σ) :
    launchFold step (n + k) s = launchFold step n s := by
  induction k with
  | zero => rfl
  | succ k ih => rw [Nat.add_succ, launchFold_succ, h (n + k) (Nat.le_add_right n k), ih]

/-- Positions that no thread of the launch writes keep their initial value. -/
theorem launchFold_frame (step : Nat → (Nat → ℚ) → (Nat → ℚ))
    (P : Nat → Prop) (h : ∀ t d p, P p → step t d p = d p)
    (T : Nat) (dst : Nat → ℚ) (p : Nat) (hp : P p) :
    launchFold step T dst p = dst p := by
  induction T with
  | zero => rfl
  | succ T ih => rw [launchFold_succ, h _ _ _ hp, ih]

/-- Value of a launch at a slot that thread i writes with a value independent
of the state, provided every thread touches only its own slot and no later
thread shares slot pos i. -/
theorem launchFold_value (step : Nat → (Nat → ℚ) → (Nat → ℚ)) (pos : Nat → Nat)
    (i : Nat) (v : ℚ)
    (hstep : ∀ t d p, p ≠ pos t → step t d p = d p)
    (hact : ∀ d, step i d (pos i) = v) (dst : Nat → ℚ) :
    ∀ T, (∀ t, i < t → t < T → pos t ≠ pos i) → i < T →
      launchFold step T dst (pos i) = v := by
  intro T
  induction T with
  | zero => intro _ hi; exact absurd hi (Nat.not_lt_zero i)
  | succ T ih =>
    intro hinj hi
    rw [launchFold_succ]
    rcases Nat.lt_or_ge i T with hlt | hge
    · rw [hstep T _ _ (Ne.symm (hinj T hlt (Nat.lt_succ_self T)))]
      exact ih (fun t ht ht2 => hinj t ht (Nat.lt_succ_of_lt ht2)) hlt
    · have hieq : i = T := Nat.le_antisymm (Nat.lt_succ_iff.mp hi) hge
      subst hieq
      exact hact _

/-- A pack_scalar thread at or beyond i_nIndex returns without writing. -/
theorem pack_scalar_thread_inert (src : Nat → ℚ) (idx : Nat → Nat)
    (n o t : Nat) (ht : n ≤ t) (d : Nat → ℚ) :
    pack_scalar_thread src idx n o t d = d := by
  unfold pack_scalar_thread
  rw [if_pos ht]

/-- An active pack_scalar thread updates exactly slot i_offset + tid. -/
theorem pack_scalar_thread_act (src : Nat → ℚ) (idx : Nat → Nat)
    (n o t : Nat) (ht : t < n) (d : Nat → ℚ) :
    pack_scalar_thread src idx n o t d
      = Function.update d (o + t) (src (idx t)) := by
  unfold pack_scalar_thread
  rw [if_neg (Nat.not_le_of_lt ht)]

/-- A pack_scalar thread leaves every slot other than i_offset + tid alone. -/
theorem pack_scalar_thread_frame (src : Nat → ℚ) (idx : Nat → Nat)
    (n o t : Nat) (d : Nat → ℚ) (p : Nat) (hp : p ≠ o + t) :
    pack_scalar_thread src idx n o t d p = d p := by
  by_cases ht : n ≤ t
  · rw [pack_scalar_thread_inert src idx n o t ht]
  · rw [pack_scalar_thread_act src idx n o t (Nat.lt_of_not_le ht)]
    exact Function.update_noteq hp _ _

/-- Value written by a pack_scalar launch at slot i_offset + i for i below
both the index count and the launch size. -/
theorem pack_scalar_launch_at (src : Nat → ℚ) (idx : Nat → Nat)
    (n o : Nat) (i : Nat) (hi : i < n) (T : Nat) (hiT : i < T) (dst : Nat → ℚ) :
    pack_scalar_launch src idx n o T dst (o + i) = src (idx i) := by
  unfold pack_scalar_launch
  refine launchFold_value _ (fun t => o + t) i (src (idx i))
    (fun t d p hp => pack_scalar_thread_frame src idx n o t d p hp)
    (fun d => ?_) dst T (fun t hti _ => by show o + t ≠ o + i; omega) hiT
  rw [pack_scalar_thread_act src idx n o i hi]
  exact Function.update_same _ _ _

/-- A pack_scalar launch never touches a slot outside the declared range. -/
theorem pack_scalar_launch_frame (src : Nat → ℚ) (idx : Nat → Nat)
    (n o T : Nat) (dst : Nat → ℚ) (p : Nat) (hp : p < o ∨ o + n ≤ p) :
    pack_scalar_launch src idx n o T dst p = dst p := by
  unfold pack_scalar_launch
  refine launchFold_frame _ (fun q => q < o ∨ o + n ≤ q) ?_ T dst p hp
  intro t d q hq
  by_cases ht : n ≤ t
  · rw [pack_scalar_thread_inert src idx n o t ht]
  · rw [pack_scalar_thread_act src idx n o t (Nat.lt_of_not_le ht)]
    refine Function.update_noteq ?_ _ _
    omega

/-- An unpack_scalar thread at or beyond i_nIndex returns without writing. -/
theorem unpack_scalar_thread_inert (srcB : Nat → ℚ) (idx : Nat → Nat)
    (n o t : Nat) (ht : n ≤ t) (d : Nat → ℚ) :
    unpack_scalar_thread srcB idx n o t d = d := by
  unfold unpack_scalar_thread
  rw [if_pos ht]

/-- An active unpack_scalar thread updates exactly slot i_indexes[tid]. -/
theorem unpack_scalar_thread_act (srcB : Nat → ℚ) (idx : Nat → Nat)
    (n o t : Nat) (ht : t < n) (d : Nat → ℚ) :
    unpack_scalar_thread srcB idx n o t d
      = Function.update d (idx t) (srcB (o + t)) := by
  unfold unpack_scalar_thread
  rw [if_neg (Nat.not_le_of_lt ht)]

/-- An unpack_scalar thread leaves every slot other than i_indexes[tid]
alone. -/
theorem unpack_scalar_thread_frame (srcB : Nat → ℚ) (idx : Nat → Nat)
    (n o t : Nat) (d : Nat → ℚ) (p : Nat) (hp : p ≠ idx t) :
    unpack_scalar_thread srcB idx n o t d p = d p := by
  by_cases ht : n ≤ t
  · rw [unpack_scalar_thread_inert srcB idx n o t ht]
  · rw [unpack_scalar_thread_act srcB idx n o t (Nat.lt_of_not_le ht)]
    exact Function.update_noteq hp _ _

/-- A pack_vector thread at or beyond i_nIndexX + i_nIndexY returns without
writing, whatever the rotation code. -/
theorem pack_vector_thread_inert (xs ys : Nat → ℚ) (ix iy : Nat → Nat)
    (nX nY o : Nat) (rot : ℤ) (t : Nat) (ht : nX + nY ≤ t) (d : Nat → ℚ) :
    pack_vector_thread xs ys ix iy nX nY o rot t d = d := by
  unfold pack_vector_thread
  rw [if_pos ht]

/-- A pack_vector thread leaves every slot other than i_offset + tid alone,
whatever the rotation code. -/
theorem pack_vector_thread_frame (xs ys : Nat → ℚ) (ix iy : Nat → Nat)
    (nX nY o : Nat) (rot : ℤ) (t : Nat) (d : Nat → ℚ) (p : Nat)
    (hp : p ≠ o + t) :
    pack_vector_thread xs ys ix iy nX nY o rot t d p = d p := by
  unfold pack_vector_thread
  by_cases hg : nX + nY ≤ t
  · rw [if_pos hg]
  · rw [if_neg hg]
    by_cases h0 : rot = 0
    · rw [if_pos h0]
      by_cases hx : t < nX
      · rw [if_pos hx]; exact Function.update_noteq hp _ _
      · rw [if_neg hx]; exact Function.update_noteq hp _ _
    · rw [if_neg h0]
      by_cases h1 : rot = 1
      · rw [if_pos h1]
        by_cases hy : t < nY
        · rw [if_pos hy]; exact Function.update_noteq hp _ _
        · rw [if_neg hy]; exact Function.update_noteq hp _ _
      · rw [if_neg h1]
        by_cases h2 : rot = 2
        · rw [if_pos h2]
          by_cases hx : t < nX
          · rw [if_pos hx]; exact Function.update_noteq hp _ _
          · rw [if_neg hx]; exact Function.update_noteq hp _ _
        · rw [if_neg h2]
          by_cases h3 : rot = 3
          · rw [if_pos h3]
            by_cases hy : t < nY
            · rw [if_pos hy]; exact Function.update_noteq hp _ _
            · rw [if_neg hy]; exact Function.update_noteq hp _ _
          · rw [if_neg h3]

/-- Value of a pack_vector launch at slot i_offset + i, given the value an
active thread i writes there. -/
theorem pack_vector_launch_at (xs ys : Nat → ℚ) (ix iy : Nat → Nat)
    (nX nY o : Nat) (rot : ℤ) (i : Nat) (v : ℚ)
    (hact : ∀ d : Nat → ℚ,
      pack_vector_thread xs ys ix iy nX nY o rot i d (o + i) = v)
    (T : Nat) (hiT : i < T) (dst : Nat → ℚ) :
    pack_vector_launch xs ys ix iy nX nY o rot T dst (o + i) = v := by
  unfold pack_vector_launch
  exact launchFold_value _ (fun t => o + t) i v
    (fun t d p hp => pack_vector_thread_frame xs ys ix iy nX nY o rot t d p hp)
    hact dst T (fun t hti _ => by show o + t ≠ o + i; omega) hiT

/-- Written value of an active pack_vector thread: rotation 0, X segment. -/
theorem pack_vector_val0X (xs ys : Nat → ℚ) (ix iy : Nat → Nat)
    (nX nY o t : Nat) (ht : t < nX) (d : Nat → ℚ) :
    pack_vector_thread xs ys ix iy nX nY o 0 t d (o + t) = xs (ix t) := by
  unfold pack_vector_thread
  rw [if_neg (by omega), if_pos rfl, if_pos ht]
  exact Function.update_same _ _ _

/-- Written value of an active pack_vector thread: rotation 0, Y segment. -/
theorem pack_vector_val0Y (xs ys : Nat → ℚ) (ix iy : Nat → Nat)
    (nX nY o t : Nat) (h1 : nX ≤ t) (h2 : t < nX + nY) (d : Nat → ℚ) :
    pack_vector_thread xs ys ix iy nX nY o 0 t d (o + t)
      = ys (iy (t - nX)) := by
  unfold pack_vector_thread
  rw [if_neg (by omega), if_pos rfl, if_neg (by omega)]
  exact Function.update_same _ _ _

/-- Written value of an active pack_vector thread: rotation 1, Y segment. -/
theorem pack_vector_val1Y (xs ys : Nat → ℚ) (ix iy : Nat → Nat)
    (nX nY o t : Nat) (ht : t < nY) (d : Nat → ℚ) :
    pack_vector_thread xs ys ix iy nX nY o 1 t d (o + t) = ys (iy t) := by
  unfold pack_vector_thread
  rw [if_neg (by omega), if_neg (by decide), if_pos rfl, if_pos ht]
  exact Function.update_same _ _ _

/-- Written value of an active pack_vector thread: rotation 1, X segment. -/
theorem pack_vector_val1X (xs ys : Nat → ℚ) (ix iy : Nat → Nat)
    (nX nY o t : Nat) (h1 : nY ≤ t) (h2 : t < nX + nY) (d : Nat → ℚ) :
    pack_vector_thread xs ys ix iy nX nY o 1 t d (o + t)
      = -1 * xs (ix (t - nY)) := by
  unfold pack_vector_thread
  rw [if_neg (by omega), if_neg (by decide), if_pos rfl, if_neg (by omega)]
  exact Function.update_same _ _ _

/-- Written value of an active pack_vector thread: rotation 2, X segment. -/
theorem pack_vector_val2X (xs ys : Nat → ℚ) (ix iy : Nat → Nat)
    (nX nY o t : Nat) (ht : t < nX) (d : Nat → ℚ) :
    pack_vector_thread xs ys ix iy nX nY o 2 t d (o + t)
      = -1 * xs (ix t) := by
  unfold pack_vector_thread
  rw [if_neg (by omega), if_neg (by decide), if_neg (by decide), if_pos rfl,
    if_pos ht]
  exact Function.update_same _ _ _

/-- Written value of an active pack_vector thread: rotation 2, Y segment. -/
theorem pack_vector_val2Y (xs ys : Nat → ℚ) (ix iy : Nat → Nat)
    (nX nY o t : Nat) (h1 : nX ≤ t) (h2 : t < nX + nY) (d : Nat → ℚ) :
    pack_vector_thread xs ys ix iy nX nY o 2 t d (o + t)
      = -1 * ys (iy (t - nX)) := by
  unfold pack_vector_thread
  rw [if_neg (by omega), if_neg (by decide), if_neg (by decide), if_pos rfl,
    if_neg (by omega)]
  exact Function.update_same _ _ _

/-- Written value of an active pack_vector thread: rotation 3, Y segment. -/
theorem pack_vector_val3Y (xs ys : Nat → ℚ) (ix iy : Nat → Nat)
    (nX nY o t : Nat) (ht : t < nY) (d : Nat → ℚ) :
    pack_vector_thread xs ys ix iy nX nY o 3 t d (o + t)
      = -1 * ys (iy t) := by
  unfold pack_vector_thread
  rw [if_neg (by omega), if_neg (by decide), if_neg (by decide),
    if_neg (by decide), if_pos rfl, if_pos ht]
  exact Function.update_same _ _ _

/-- Written value of an active pack_vector thread: rotation 3, X segment. -/
theorem pack_vector_val3X (xs ys : Nat → ℚ) (ix iy : Nat → Nat)
    (nX nY o t : Nat) (h1 : nY ≤ t) (h2 : t < nX + nY) (d : Nat → ℚ) :
    pack_vector_thread xs ys ix iy nX nY o 3 t d (o + t)
      = xs (ix (t - nY)) := by
  unfold pack_vector_thread
  rw [if_neg (by omega), if_neg (by decide), if_neg (by decide),
    if_neg (by decide), if_pos rfl, if_neg (by omega)]
  exact Function.update_same _ _ _

/-- An unpack_vector thread at or beyond i_nIndexX + i_nIndexY does
nothing. -/
theorem unpack_vector_thread_inert (srcB : Nat → ℚ) (ix iy : Nat → Nat)
    (nX nY o t : Nat) (ht : nX + nY ≤ t) (d : (Nat → ℚ) × (Nat → ℚ)) :
    unpack_vector_thread srcB ix iy nX nY o t d = d := by
  unfold unpack_vector_thread
  rw [if_neg (by omega), if_neg (by omega)]

/-- Concrete example source x = [1, 2] from the spec. -/
def exX : Nat → ℚ := fun i => if i = 0 then 1 else if i = 1 then 2 else 0

/-- Concrete example source y = [3, 4] from the spec. -/
def exY : Nat → ℚ := fun i => if i = 0 then 3 else if i = 1 then 4 else 0

/-- Concrete identity index list. -/
def exIdx : Nat → Nat := fun i => i

/-- Concrete all-zero buffer. -/
def zeroBuf : Nat → ℚ := fun _ => 0

/-- Concrete vector pack of the spec example, per rotation code. -/
def exPack (rot : ℤ) : Nat → ℚ :=
  pack_vector_launch exX exY exIdx exIdx 2 2 0 rot 4 zeroBuf

/-- C1: for sources x = [1,2], y = [3,4], identity index lists of length 2
and offset 0, the packed buffer is [1,2,3,4] under rotation 0, [3,4,-1,-2]
under rotation 1, [-1,-2,-3,-4] under rotation 2, [-3,-4,1,2] under rotation
3; in general rotation 0 packs x then y directly, rotation 1 packs y directly
then negated x, rotation 2 packs negated x then negated y, rotation 3 packs
negated y then x, each segment read through its own index list. -/
theorem C1_rotation_table :
    (exPack 0 0 = 1 ∧ exPack 0 1 = 2 ∧ exPack 0 2 = 3 ∧ exPack 0 3 = 4) ∧
    (exPack 1 0 = 3 ∧ exPack 1 1 = 4 ∧ exPack 1 2 = -1 ∧ exPack 1 3 = -2) ∧
    (exPack 2 0 = -1 ∧ exPack 2 1 = -2 ∧ exPack 2 2 = -3 ∧ exPack 2 3 = -4) ∧
    (exPack 3 0 = -3 ∧ exPack 3 1 = -4 ∧ exPack 3 2 = 1 ∧ exPack 3 3 = 2) ∧
    (∀ (xs ys : Nat → ℚ) (ix iy : Nat → Nat) (nX nY o T : Nat)
        (dst : Nat → ℚ) (tid : Nat), tid < T →
      (tid < nX →
        pack_vector_launch xs ys ix iy nX nY o 0 T dst (o + tid)
          = xs (ix tid)) ∧
      (nX ≤ tid → tid < nX + nY →
        pack_vector_launch xs ys ix iy nX nY o 0 T dst (o + tid)
          = ys (iy (tid - nX))) ∧
      (tid < nY →
        pack_vector_launch xs ys ix iy nX nY o 1 T dst (o + tid)
          = ys (iy tid)) ∧
      (nY ≤ tid → tid < nX + nY →
        pack_vector_launch xs ys ix iy nX nY o 1 T dst (o + tid)
          = -1 * xs (ix (tid - nY))) ∧
      (tid < nX →
        pack_vector_launch xs ys ix iy nX nY o 2 T dst (o + tid)
          = -1 * xs (ix tid)) ∧
      (nX ≤ tid → tid < nX + nY →
        pack_vector_launch xs ys ix iy nX nY o 2 T dst (o + tid)
          = -1 * ys (iy (tid - nX))) ∧
      (tid < nY →
        pack_vector_launch xs ys ix iy nX nY o 3 T dst (o + tid)
          = -1 * ys (iy tid)) ∧
      (nY ≤ tid → tid < nX + nY →
        pack_vector_launch xs ys ix iy nX nY o 3 T dst (o + tid)
          = xs (ix (tid - nY)))) := by
  refine ⟨?_, ?_, ?_, ?_, ?_⟩
  · norm_num [exPack, pack_vector_launch, launchFold, pack_vector_thread,
      List.range_succ, exX, exY, exIdx, zeroBuf, Function.update]
  · norm_num [exPack, pack_vector_launch, launchFold, pack_vector_thread,
      List.range_succ, exX, exY, exIdx, zeroBuf, Function.update]
  · norm_num [exPack, pack_vector_launch, launchFold, pack_vector_thread,
      List.range_succ, exX, exY, exIdx, zeroBuf, Function.update]
  · norm_num [exPack, pack_vector_launch, launchFold, pack_vector_thread,
      List.range_succ, exX, exY, exIdx, zeroBuf, Function.update]
  · intro xs ys ix iy nX nY o T dst tid htT
    refine ⟨?_, ?_, ?_, ?_, ?_, ?_, ?_, ?_⟩
    · intro h
      exact pack_vector_launch_at xs ys ix iy nX nY o 0 tid _
        (fun d => pack_vector_val0X xs ys ix iy nX nY o tid h d) T htT dst
    · intro h1 h2
      exact pack_vector_launch_at xs ys ix iy nX nY o 0 tid _
        (fun d => pack_vector_val0Y xs ys ix iy nX nY o tid h1 h2 d) T htT dst
    · intro h
      exact pack_vector_launch_at xs ys ix iy nX nY o 1 tid _
        (fun d => pack_vector_val1Y xs ys ix iy nX nY o tid h d) T htT dst
    · intro h1 h2
      exact pack_vector_launch_at xs ys ix iy nX nY o 1 tid _
        (fun d => pack_vector_val1X xs ys ix iy nX nY o tid h1 h2 d) T htT dst
    · intro h
      exact pack_vector_launch_at xs ys ix iy nX nY o 2 tid _
        (fun d => pack_vector_val2X xs ys ix iy nX nY o tid h d) T htT dst
    · intro h1 h2
      exact pack_vector_launch_at xs ys ix iy nX nY o 2 tid _
        (fun d => pack_vector_val2Y xs ys ix iy nX nY o tid h1 h2 d) T htT dst
    · intro h
      exact pack_vector_launch_at xs ys ix iy nX nY o 3 tid _
        (fun d => pack_vector_val3Y xs ys ix iy nX nY o tid h d) T htT dst
    · intro h1 h2
      exact pack_vector_launch_at xs ys ix iy nX nY o 3 tid _
        (fun d => pack_vector_val3X xs ys ix iy nX nY o tid h1 h2 d) T htT dst

/-- Witness for C1: the rotation 1 launch of the spec example writes the
first y value to the first buffer slot. -/
theorem C1_rotation_table_witness :
    pack_vector_launch exX exY exIdx exIdx 2 2 0 1 4 zeroBuf (0 + 0)
      = exY (exIdx 0) :=
  ((C1_rotation_table.2.2.2.2 exX exY exIdx exIdx 2 2 0 4 zeroBuf 0
    (by decide)).2.2.1) (by decide)

/-- C2: the scalar pack kernel copies sourceArray[indexes[i]] into
destinationBuffer[offset + i] for every i below nIndex, both as the action of
thread i and in the launched result, and any thread with identifier at or
beyond nIndex performs no action. -/
theorem C2_pack_scalar_contract (src : Nat → ℚ) (idx : Nat → Nat)
    (n o T : Nat) (dst : Nat → ℚ) :
    (∀ i d, i < n →
        pack_scalar_thread src idx n o i d
          = Function.update d (o + i) (src (idx i))) ∧
    (∀ tid d, n ≤ tid → pack_scalar_thread src idx n o tid d = d) ∧
    (∀ i, i < n → n ≤ T →
        pack_scalar_launch src idx n o T dst (o + i) = src (idx i)) := by
  refine ⟨?_, ?_, ?_⟩
  · intro i d hi
    exact pack_scalar_thread_act src idx n o i hi d
  · intro tid d ht
    exact pack_scalar_thread_inert src idx n o tid ht d
  · intro i hi hT
    exact pack_scalar_launch_at src idx n o i hi T (by omega) dst

/-- Witness for C2: slot offset + 1 of a concrete length-2 launch holds the
element the index list selects. -/
theorem C2_pack_scalar_contract_witness :
    pack_scalar_launch exX exIdx 2 9 2 zeroBuf (9 + 1) = exX (exIdx 1) :=
  (C2_pack_scalar_contract exX exIdx 2 9 2 zeroBuf).2.2 1 (by decide)
    (by decide)

/-- C3: the scalar unpack kernel copies sourceBuffer[offset + i] into
destinationArray[indexes[i]] for every thread i below nIndex, and any thread
with identifier at or beyond nIndex performs no action. -/
theorem C3_unpack_scalar_contract (srcB : Nat → ℚ) (idx : Nat → Nat)
    (n o : Nat) :
    (∀ i d, i < n →
        unpack_scalar_thread srcB idx n o i d
          = Function.update d (idx i) (srcB (o + i))) ∧
    (∀ tid d, n ≤ tid → unpack_scalar_thread srcB idx n o tid d = d) := by
  refine ⟨?_, ?_⟩
  · intro i d hi
    exact unpack_scalar_thread_act srcB idx n o i hi d
  · intro tid d ht
    exact unpack_scalar_thread_inert srcB idx n o tid ht d

/-- Witness for C3: thread 1 of a concrete length-2 unpack writes exactly the
slot its index names. -/
theorem C3_unpack_scalar_contract_witness :
    unpack_scalar_thread exX exIdx 2 9 1 zeroBuf
      = Function.update zeroBuf (exIdx 1) (exX (9 + 1)) :=
  (C3_unpack_scalar_contract exX exIdx 2 9).1 1 zeroBuf (by decide)

/-- C4: the vector unpack kernel writes sourceBuffer[offset + tid] into
destinationArrayX[indexesX[tid]] for tid below nIndexX, into
destinationArrayY[indexesY[tid - nIndexX]] for tid in [nIndexX,
nIndexX + nIndexY), and copies the value unchanged in both cases, with no
rotation or negation. -/
theorem C4_unpack_vector_contract (srcB : Nat → ℚ) (ix iy : Nat → Nat)
    (nX nY o : Nat) :
    (∀ tid d, tid < nX →
        unpack_vector_thread srcB ix iy nX nY o tid d
          = (Function.update d.1 (ix tid) (srcB (o + tid)), d.2)) ∧
    (∀ tid d, nX ≤ tid → tid < nX + nY →
        unpack_vector_thread srcB ix iy nX nY o tid d
          = (d.1, Function.update d.2 (iy (tid - nX)) (srcB (o + tid)))) := by
  refine ⟨?_, ?_⟩
  · intro tid d h
    unfold unpack_vector_thread
    rw [if_pos h]
  · intro tid d h1 h2
    unfold unpack_vector_thread
    rw [if_neg (by omega), if_pos h2]

/-- Witness for C4: thread 2 of a concrete nX = nY = 2 unpack writes the Y
destination slot its index names, copying the buffer value unchanged. -/
theorem C4_unpack_vector_contract_witness :
    unpack_vector_thread exX exIdx exIdx 2 2 9 2 (zeroBuf, zeroBuf)
      = (zeroBuf, Function.update zeroBuf (exIdx (2 - 2)) (exX (9 + 2))) :=
  (C4_unpack_vector_contract exX exIdx exIdx 2 2 9).2 2 (zeroBuf, zeroBuf)
    (by decide) (by decide)

/-- C5: for each of the four kernels, every thread at or beyond the declared
work count (nIndex for the scalar kernels, nIndexX + nIndexY for the vector
kernels) leaves the state unchanged, and launching with k extra threads gives
the same result as launching with exactly the declared count. -/
theorem C5_bounds_noop (src srcB srcV : Nat → ℚ) (idx : Nat → Nat)
    (n o : Nat) (dstP dstU : Nat → ℚ) (xs ys : Nat → ℚ) (ix iy : Nat → Nat)
    (nX nY oV : Nat) (rot : ℤ) (dstV : Nat → ℚ)
    (dsts : (Nat → ℚ) × (Nat → ℚ)) :
    (∀ tid, n ≤ tid → ∀ d : Nat → ℚ,
        pack_scalar_thread src idx n o tid d = d) ∧
    (∀ k, pack_scalar_launch src idx n o (n + k) dstP
        = pack_scalar_launch src idx n o n dstP) ∧
    (∀ tid, n ≤ tid → ∀ d : Nat → ℚ,
        unpack_scalar_thread srcB idx n o tid d = d) ∧
    (∀ k, unpack_scalar_launch srcB idx n o (n + k) dstU
        = unpack_scalar_launch srcB idx n o n dstU) ∧
    (∀ tid, nX + nY ≤ tid → ∀ d : Nat → ℚ,
        pack_vector_thread xs ys ix iy nX nY oV rot tid d = d) ∧
    (∀ k, pack_vector_launch xs ys ix iy nX nY oV rot (nX + nY + k) dstV
        = pack_vector_launch xs ys ix iy nX nY oV rot (nX + nY) dstV) ∧
    (∀ tid, nX + nY ≤ tid → ∀ d : (Nat → ℚ) × (Nat → ℚ),
        unpack_vector_thread srcV ix iy nX nY oV tid d = d) ∧
    (∀ k, unpack_vector_launch srcV ix iy nX nY oV (nX + nY + k) dsts
        = unpack_vector_launch srcV ix iy nX nY oV (nX + nY) dsts) := by
  refine ⟨?_, ?_, ?_, ?_, ?_, ?_, ?_, ?_⟩
  · intro tid ht d
    exact pack_scalar_thread_inert src idx n o tid ht d
  · intro k
    exact launchFold_extend _ n
      (fun t ht s => pack_scalar_thread_inert src idx n o t ht s) k dstP
  · intro tid ht d
    exact unpack_scalar_thread_inert srcB idx n o tid ht d
  · intro k
    exact launchFold_extend _ n
      (fun t ht s => unpack_scalar_thread_inert srcB idx n o t ht s) k dstU
  · intro tid ht d
    exact pack_vector_thread_inert xs ys ix iy nX nY oV rot tid ht d
  · intro k
    exact launchFold_extend _ (nX + nY)
      (fun t ht s => pack_vector_thread_inert xs ys ix iy nX nY oV rot t ht s)
      k dstV
  · intro tid ht d
    exact unpack_vector_thread_inert srcV ix iy nX nY oV tid ht d
  · intro k
    exact launchFold_extend _ (nX + nY)
      (fun t ht s => unpack_vector_thread_inert srcV ix iy nX nY oV t ht s)
      k dsts

/-- Witness for C5: a concrete launch of scalar pack with one extra thread
equals the exact launch. -/
theorem C5_bounds_noop_witness :
    pack_scalar_launch exX exIdx 2 9 (2 + 1) zeroBuf
      = pack_scalar_launch exX exIdx 2 9 2 zeroBuf :=
  (C5_bounds_noop exX exX exX exIdx 2 9 zeroBuf zeroBuf exX exY exIdx exIdx
    2 2 0 0 zeroBuf (zeroBuf, zeroBuf)).2.1 1

/-- C6: the output split of vector pack is rotation dependent.  For rotation
0 or 2 the first nX slots are unchanged when the Y source, Y index list and
initial buffer change, and the following nY slots are unchanged when the X
source, X index list and initial buffer change; for rotation 1 or 3 the first
nY slots depend only on the Y data and the following nX slots only on the X
data, in the same sense. -/
theorem C6_segment_split (xs ys xs2 ys2 : Nat → ℚ) (ix iy ix2 iy2 : Nat → Nat)
    (nX nY o T : Nat) (dst dst2 : Nat → ℚ) (rot : ℤ) (hT : nX + nY ≤ T) :
    ((rot = 0 ∨ rot = 2) →
      (∀ i, i < nX →
        pack_vector_launch xs ys ix iy nX nY o rot T dst (o + i)
          = pack_vector_launch xs ys2 ix iy2 nX nY o rot T dst2 (o + i)) ∧
      (∀ i, nX ≤ i → i < nX + nY →
        pack_vector_launch xs ys ix iy nX nY o rot T dst (o + i)
          = pack_vector_launch xs2 ys ix2 iy nX nY o rot T dst2 (o + i))) ∧
    ((rot = 1 ∨ rot = 3) →
      (∀ i, i < nY →
        pack_vector_launch xs ys ix iy nX nY o rot T dst (o + i)
          = pack_vector_launch xs2 ys ix2 iy nX nY o rot T dst2 (o + i)) ∧
      (∀ i, nY ≤ i → i < nX + nY →
        pack_vector_launch xs ys ix iy nX nY o rot T dst (o + i)
          = pack_vector_launch xs ys2 ix iy2 nX nY o rot T dst2 (o + i))) := by
  constructor
  · rintro (rfl | rfl)
    · refine ⟨fun i hi => ?_, fun i h1 h2 => ?_⟩
      · rw [pack_vector_launch_at xs ys ix iy nX nY o 0 i _
          (fun d => pack_vector_val0X xs ys ix iy nX nY o i hi d) T
          (by omega) dst]
        rw [pack_vector_launch_at xs ys2 ix iy2 nX nY o 0 i _
          (fun d => pack_vector_val0X xs ys2 ix iy2 nX nY o i hi d) T
          (by omega) dst2]
      · rw [pack_vector_launch_at xs ys ix iy nX nY o 0 i _
          (fun d => pack_vector_val0Y xs ys ix iy nX nY o i h1 h2 d) T
          (by omega) dst]
        rw [pack_vector_launch_at xs2 ys ix2 iy nX nY o 0 i _
          (fun d => pack_vector_val0Y xs2 ys ix2 iy nX nY o i h1 h2 d) T
          (by omega) dst2]
    · refine ⟨fun i hi => ?_, fun i h1 h2 => ?_⟩
      · rw [pack_vector_launch_at xs ys ix iy nX nY o 2 i _
          (fun d => pack_vector_val2X xs ys ix iy nX nY o i hi d) T
          (by omega) dst]
        rw [pack_vector_launch_at xs ys2 ix iy2 nX nY o 2 i _
          (fun d => pack_vector_val2X xs ys2 ix iy2 nX nY o i hi d) T
          (by omega) dst2]
      · rw [pack_vector_launch_at xs ys ix iy nX nY o 2 i _
          (fun d => pack_vector_val2Y xs ys ix iy nX nY o i h1 h2 d) T
          (by omega) dst]
        rw [pack_vector_launch_at xs2 ys ix2 iy nX nY o 2 i _
          (fun d => pack_vector_val2Y xs2 ys ix2 iy nX nY o i h1 h2 d) T
          (by omega) dst2]
  · rintro (rfl | rfl)
    · refine ⟨fun i hi => ?_, fun i h1 h2 => ?_⟩
      · rw [pack_vector_launch_at xs ys ix iy nX nY o 1 i _
          (fun d => pack_vector_val1Y xs ys ix iy nX nY o i hi d) T
          (by omega) dst]
        rw [pack_vector_launch_at xs2 ys ix2 iy nX nY o 1 i _
          (fun d => pack_vector_val1Y xs2 ys ix2 iy nX nY o i hi d) T
          (by omega) dst2]
      · rw [pack_vector_launch_at xs ys ix iy nX nY o 1 i _
          (fun d => pack_vector_val1X xs ys ix iy nX nY o i h1 h2 d) T
          (by omega) dst]
        rw [pack_vector_launch_at xs ys2 ix iy2 nX nY o 1 i _
          (fun d => pack_vector_val1X xs ys2 ix iy2 nX nY o i h1 h2 d) T
          (by omega) dst2]
    · refine ⟨fun i hi => ?_, fun i h1 h2 => ?_⟩
      · rw [pack_vector_launch_at xs ys ix iy nX nY o 3 i _
          (fun d => pack_vector_val3Y xs ys ix iy nX nY o i hi d) T
          (by omega) dst]
        rw [pack_vector_launch_at xs2 ys ix2 iy nX nY o 3 i _
          (fun d => pack_vector_val3Y xs2 ys ix2 iy nX nY o i hi d) T
          (by omega) dst2]
      · rw [pack_vector_launch_at xs ys ix iy nX nY o 3 i _
          (fun d => pack_vector_val3X xs ys ix iy nX nY o i h1 h2 d) T
          (by omega) dst]
        rw [pack_vector_launch_at xs ys2 ix iy2 nX nY o 3 i _
          (fun d => pack_vector_val3X xs ys2 ix iy2 nX nY o i h1 h2 d) T
          (by omega) dst2]

/-- Witness for C6: under rotation 0, changing the Y source, Y index list and
initial buffer does not change the first slot of the spec example. -/
theorem C6_segment_split_witness :
    pack_vector_launch exX exY exIdx exIdx 2 2 0 0 4 zeroBuf (0 + 0)
      = pack_vector_launch exX exX exIdx exIdx 2 2 0 0 4 exY (0 + 0) :=
  ((C6_segment_split exX exY exX exX exIdx exIdx exIdx exIdx 2 2 0 4 zeroBuf
    exY 0 (by decide)).1 (Or.inl rfl)).1 0 (by decide)

/-- C7: a scalar pack with index list I of length n at offset o, followed by
a scalar unpack with the same index list and offset into a zero-initialized
array, reproduces the source at every index appearing in I, provided the
index values are pairwise distinct below n. -/
theorem C7_scalar_round_trip (A : Nat → ℚ) (I : Nat → Nat) (n o : Nat)
    (huniq : ∀ i j, i < n → j < n → I i = I j → i = j) (B0 : Nat → ℚ)
    (i : Nat) (hi : i < n) :
    unpack_scalar_launch (pack_scalar_launch A I n o n B0) I n o n
      (fun _ => 0) (I i) = A (I i) := by
  have hpack : pack_scalar_launch A I n o n B0 (o + i) = A (I i) :=
    pack_scalar_launch_at A I n o i hi n hi B0
  unfold unpack_scalar_launch
  refine launchFold_value _ (fun t => I t) i (A (I i))
    (fun t d p hp => unpack_scalar_thread_frame _ I n o t d p hp)
    (fun d => ?_) _ n (fun t hti htn => ?_) hi
  · rw [unpack_scalar_thread_act _ I n o i hi, Function.update_same]
    exact hpack
  · show I t ≠ I i
    intro he
    have := huniq t i htn hi he
    omega

/-- Witness for C7: the concrete length-2 round trip restores the second
source element at its index. -/
theorem C7_scalar_round_trip_witness :
    unpack_scalar_launch (pack_scalar_launch exX exIdx 2 9 2 zeroBuf)
      exIdx 2 9 2 (fun _ => 0) (exIdx 1) = exX (exIdx 1) :=
  C7_scalar_round_trip exX exIdx 2 9
    (fun i j _ _ h => h) zeroBuf 1 (by decide)

/-- Per-code vector transform as the pack kernel realizes it: pack a single
vector (nX = nY = 1, trivial index lists, offset 0) and read back the two
buffer slots. -/
def kernelRotate (rot : ℤ) (v : ℚ × ℚ) : ℚ × ℚ :=
  ((pack_vector_launch (fun _ => v.1) (fun _ => v.2) (fun _ => 0) (fun _ => 0)
      1 1 0 rot 2 (fun _ => 0)) 0,
   (pack_vector_launch (fun _ => v.1) (fun _ => v.2) (fun _ => 0) (fun _ => 0)
      1 1 0 rot 2 (fun _ => 0)) 1)

/-- Rotation code 1 realizes the transform x, y to y, minus x. -/
theorem kernelRotate_eq1 (v : ℚ × ℚ) : kernelRotate 1 v = (v.2, -1 * v.1) := by
  simp [kernelRotate, pack_vector_launch, launchFold, List.range_succ,
    pack_vector_thread, Function.update]

/-- Rotation code 2 realizes the transform x, y to minus x, minus y. -/
theorem kernelRotate_eq2 (v : ℚ × ℚ) :
    kernelRotate 2 v = (-1 * v.1, -1 * v.2) := by
  simp [kernelRotate, pack_vector_launch, launchFold, List.range_succ,
    pack_vector_thread, Function.update]

/-- Rotation code 3 realizes the transform x, y to minus y, x. -/
theorem kernelRotate_eq3 (v : ℚ × ℚ) : kernelRotate 3 v = (-1 * v.2, v.1) := by
  simp [kernelRotate, pack_vector_launch, launchFold, List.range_succ,
    pack_vector_thread, Function.update]

/-- C8: the transforms the pack kernel realizes for codes 1, 2, 3 are the
spec table maps, rotation 3 undoes rotation 1, and rotation 2 undoes
itself, on every 2-component vector. -/
theorem C8_rotation_inverse_pairing :
    (∀ v : ℚ × ℚ, kernelRotate 1 v = (v.2, -1 * v.1)) ∧
    (∀ v : ℚ × ℚ, kernelRotate 2 v = (-1 * v.1, -1 * v.2)) ∧
    (∀ v : ℚ × ℚ, kernelRotate 3 v = (-1 * v.2, v.1)) ∧
    (∀ v : ℚ × ℚ, kernelRotate 3 (kernelRotate 1 v) = v) ∧
    (∀ v : ℚ × ℚ, kernelRotate 2 (kernelRotate 2 v) = v) := by
  refine ⟨kernelRotate_eq1, kernelRotate_eq2, kernelRotate_eq3, ?_, ?_⟩
  · intro v
    rw [kernelRotate_eq1, kernelRotate_eq3]
    simp [Prod.ext_iff]
  · intro v
    rw [kernelRotate_eq2, kernelRotate_eq2]
    simp [Prod.ext_iff]

/-- C9: a pack launch writes only the declared buffer sub-range, whatever the
launch size; consequently two scalar pack invocations into disjoint offset
ranges of one buffer each leave their own data in their own range. -/
theorem C9_pack_frame (src src2 : Nat → ℚ) (idx idx2 : Nat → Nat)
    (n o T n2 o2 : Nat) (dst : Nat → ℚ) (xs ys : Nat → ℚ) (ix iy : Nat → Nat)
    (nX nY oV TV : Nat) (rot : ℤ) (dstV : Nat → ℚ) :
    (∀ p, p < o ∨ o + n ≤ p →
        pack_scalar_launch src idx n o T dst p = dst p) ∧
    (∀ p, p < oV ∨ oV + (nX + nY) ≤ p →
        pack_vector_launch xs ys ix iy nX nY oV rot TV dstV p = dstV p) ∧
    (o + n ≤ o2 ∨ o2 + n2 ≤ o →
      (∀ i, i < n →
        pack_scalar_launch src2 idx2 n2 o2 n2
          (pack_scalar_launch src idx n o n dst) (o + i) = src (idx i)) ∧
      (∀ j, j < n2 →
        pack_scalar_launch src2 idx2 n2 o2 n2
          (pack_scalar_launch src idx n o n dst) (o2 + j) = src2 (idx2 j))) := by
  refine ⟨?_, ?_, ?_⟩
  · intro p hp
    exact pack_scalar_launch_frame src idx n o T dst p hp
  · intro p hp
    unfold pack_vector_launch
    refine launchFold_frame _ (fun q => q < oV ∨ oV + (nX + nY) ≤ q) ?_ TV
      dstV p hp
    intro t d q hq
    by_cases ht : nX + nY ≤ t
    · rw [pack_vector_thread_inert xs ys ix iy nX nY oV rot t ht]
    · exact pack_vector_thread_frame xs ys ix iy nX nY oV rot t d q (by omega)
  · intro hd
    refine ⟨fun i hi => ?_, fun j hj => ?_⟩
    · rw [pack_scalar_launch_frame src2 idx2 n2 o2 n2 _ (o + i) (by omega)]
      exact pack_scalar_launch_at src idx n o i hi n hi dst
    · exact pack_scalar_launch_at src2 idx2 n2 o2 j hj n2 hj _

/-- Witness for C9: a concrete pack at offset 5 leaves slot 0 of the buffer
untouched. -/
theorem C9_pack_frame_witness :
    pack_scalar_launch exX exIdx 2 5 2 zeroBuf 0 = zeroBuf 0 :=
  (C9_pack_frame exX exX exIdx exIdx 2 5 2 2 9 zeroBuf exX exY exIdx exIdx
    2 2 0 4 0 zeroBuf).1 0 (Or.inl (by decide))

/-- C10: for any rotation code outside 0, 1, 2, 3 every pack_vector thread
leaves the buffer unchanged, so the whole launch is the identity on the
destination buffer. -/
theorem C10_pack_vector_invalid_rotation (xs ys : Nat → ℚ)
    (ix iy : Nat → Nat) (nX nY o : Nat) (rot : ℤ)
    (h0 : rot ≠ 0) (h1 : rot ≠ 1) (h2 : rot ≠ 2) (h3 : rot ≠ 3) :
    (∀ tid (d : Nat → ℚ),
        pack_vector_thread xs ys ix iy nX nY o rot tid d = d) ∧
    (∀ T dst, pack_vector_launch xs ys ix iy nX nY o rot T dst = dst) := by
  have hthread : ∀ tid (d : Nat → ℚ),
      pack_vector_thread xs ys ix iy nX nY o rot tid d = d := by
    intro tid d
    unfold pack_vector_thread
    by_cases hg : nX + nY ≤ tid
    · rw [if_pos hg]
    · rw [if_neg hg, if_neg h0, if_neg h1, if_neg h2, if_neg h3]
  exact ⟨hthread, fun T dst => launchFold_inert _ hthread T dst⟩

/-- Witness for C10: a launch of the spec example with rotation code 5
returns the zero buffer unchanged. -/
theorem C10_pack_vector_invalid_rotation_witness :
    pack_vector_launch exX exY exIdx exIdx 2 2 0 5 4 zeroBuf = zeroBuf :=
  (C10_pack_vector_invalid_rotation exX exY exIdx exIdx 2 2 0 5 (by decide)
    (by decide) (by decide) (by decide)).2 4 zeroBuf

end CudaKernels
